import Mathlib

/-!
Verification of the ntp-parser packet decoder (src/ntp.rs).

The decoder is embedded shallowly: byte buffers are `List Nat` (each entry one
octet), and every nom combinator used by the source is modelled by a small
executable function with the same success/consumption/error behaviour.
Streaming primitives (`be_u8`, `be_u16`, ..., `take`) fail with `Incomplete`
when too few bytes remain; `complete` turns `Incomplete` into a normal error;
`opt` turns a normal error into `none`.  Errors keep nom's distinction between
`Err::Incomplete` and `Err::Error(kind)`.
-/

/-- The nom `ErrorKind`s reachable in this crate: `Eof` (raised by
`try_parse_extensions` for a 1..19-byte trailer), `Tag` (raised by `parse_ntp`
for an unsupported version), `Complete` (produced by the `complete` combinator
when a sub-parser ran out of bytes) and `Many1` (produced by `many1`). -/
inductive ErrKind where
  | eof
  | tag
  | complete
  | many1
deriving DecidableEq, Repr

/-- A nom error: either `Err::Incomplete` (a streaming parser needed more
bytes) or `Err::Error(kind)`. -/
inductive NomErr where
  | incomplete
  | error (kind : ErrKind)
deriving DecidableEq, Repr

/-- Result of running a parser on a byte buffer: on success the unconsumed
rest of the buffer plus the parsed value (nom's `Ok((rest, value))`),
otherwise an error. -/
inductive PResult (α : Type) where
  | ok (rest : List Nat) (val : α)
  | err (e : NomErr)
deriving DecidableEq, Repr

/-- The spec name `TruncatedInput` denotes nom's `Err::Incomplete`: a fixed or
declared-length read had fewer bytes than it required. -/
def TruncatedInput : NomErr := .incomplete

/-- The spec name `InvalidLength` denotes `Err::Error(ErrorKind::Eof)`: the
error `try_parse_extensions` raises when the trailer length is in 1..19. -/
def InvalidLength : NomErr := .error .eof

/-- The spec name `UnsupportedVersion` denotes `Err::Error(ErrorKind::Tag)`:
the error `parse_ntp` raises when the version field is neither 3 nor 4. -/
def UnsupportedVersion : NomErr := .error .tag

/-- Sequence two parsers: on success feed the rest of the input and the value
to the continuation (the `?` operator / generated nom-derive glue). -/
def pbind {α β : Type} (r : PResult α) (f : List Nat → α → PResult β) :
    PResult β :=
  match r with
  | .ok rest v => f rest v
  | .err e => .err e

/-- Map a function over the parsed value (nom's `map`). -/
def pmap {α β : Type} (f : α → β) (r : PResult α) : PResult β :=
  match r with
  | .ok rest v => .ok rest (f v)
  | .err e => .err e

/-- Big-endian value of a byte sequence (most significant byte first). -/
def beVal (l : List Nat) : Nat := l.foldl (fun acc b => acc * 256 + b) 0

/-- Streaming big-endian unsigned read of `n` bytes
(`nom::number::streaming::be_u8/be_u16/be_u32/be_u64`): checks that `n` bytes
are available, consumes exactly `n` and returns their big-endian value;
otherwise `Err::Incomplete`. -/
def be (n : Nat) (i : List Nat) : PResult Nat :=
  if n ≤ i.length then .ok (i.drop n) (beVal (i.take n)) else .err .incomplete

def be_u8 : List Nat → PResult Nat := be 1

def be_u16 : List Nat → PResult Nat := be 2

def be_u32 : List Nat → PResult Nat := be 4

def be_u64 : List Nat → PResult Nat := be 8

/-- Value of a byte reinterpreted as a two's-complement `i8`. -/
def asI8 (b : Nat) : Int := if b < 128 then (b : Int) else (b : Int) - 256

/-- Streaming big-endian signed 8-bit read (`be_i8`). -/
def be_i8 (i : List Nat) : PResult Int := pmap asI8 (be 1 i)

/-- Streaming `take(n)` (`nom::bytes::streaming::take`): consumes and returns
the first `n` bytes, or fails with `Err::Incomplete` when fewer remain. -/
def takeN (n : Nat) (i : List Nat) : PResult (List Nat) :=
  if n ≤ i.length then .ok (i.drop n) (i.take n) else .err .incomplete

/-- Raw value of the `mode` bit-field (`pub struct NtpMode(pub u8)`). -/
structure NtpMode where
  val : Nat
deriving DecidableEq, Repr

/-- The 13 fields every NTP packet (v3 and v4) starts with; nom-derive
generates the identical decoding sequence for this prefix of `NtpV3Packet`
and `NtpV4Packet`, so it is factored out here. -/
structure HeaderFields where
  li : Nat
  version : Nat
  mode : NtpMode
  stratum : Nat
  poll : Int
  precision : Int
  root_delay : Nat
  root_dispersion : Nat
  ref_id : Nat
  ts_ref : Nat
  ts_orig : Nat
  ts_recv : Nat
  ts_xmit : Nat
deriving DecidableEq, Repr

/-- Decode the 48-byte fixed header: read byte 0 (the `PreExec` `be_u8`),
compute `li`, `version`, `mode` from it by shifting and masking (the `Value`
fields), then read `stratum`, `poll`, `precision`, `root_delay`,
`root_dispersion`, `ref_id` and the four timestamps with streaming big-endian
reads, exactly as the nom-derive expansion of the two packet structs does. -/
def parseHeaderFields (i : List Nat) : PResult HeaderFields :=
  pbind (be_u8 i) fun i b0 =>
  pbind (be_u8 i) fun i stratum =>
  pbind (be_i8 i) fun i poll =>
  pbind (be_i8 i) fun i precision =>
  pbind (be_u32 i) fun i root_delay =>
  pbind (be_u32 i) fun i root_dispersion =>
  pbind (be_u32 i) fun i ref_id =>
  pbind (be_u64 i) fun i ts_ref =>
  pbind (be_u64 i) fun i ts_orig =>
  pbind (be_u64 i) fun i ts_recv =>
  pbind (be_u64 i) fun i ts_xmit =>
  .ok i ⟨b0 >>> 6, (b0 >>> 3) &&& 7, ⟨b0 &&& 7⟩, stratum, poll, precision,
    root_delay, root_dispersion, ref_id, ts_ref, ts_orig, ts_recv, ts_xmit⟩

/-- The header fields a buffer should decode to, written directly by byte
offset: `li`, `version`, `mode` are bit-fields of byte 0, `stratum`, `poll`,
`precision` are the bytes at offsets 1, 2, 3, and the wider fields are the
big-endian values of the byte ranges 4-7, 8-11, 12-15, 16-23, 24-31, 32-39
and 40-47. -/
def headerFieldsOf (i : List Nat) : HeaderFields :=
  ⟨(i.getD 0 0) >>> 6, ((i.getD 0 0) >>> 3) &&& 7, ⟨(i.getD 0 0) &&& 7⟩,
    i.getD 1 0, asI8 (i.getD 2 0), asI8 (i.getD 3 0),
    beVal ((i.drop 4).take 4), beVal ((i.drop 8).take 4),
    beVal ((i.drop 12).take 4),
    beVal ((i.drop 16).take 8), beVal ((i.drop 24).take 8),
    beVal ((i.drop 32).take 8), beVal ((i.drop 40).take 8)⟩

/-- An NTPv4 extension field as the source decodes it: two big-endian `u16`s
(`field_type`, `length`) followed by `take(length)` bytes of value. -/
structure NtpExtension where
  field_type : Nat
  length : Nat
  value : List Nat
deriving DecidableEq, Repr

/-- `NtpExtension::parse` / `parse_ntp_extension`: `field_type` (`be_u16`),
`length` (`be_u16`), then `take(length)` bytes of value. -/
def parse_ntp_extension (i : List Nat) : PResult NtpExtension :=
  pbind (be_u16 i) fun i ft =>
  pbind (be_u16 i) fun i len =>
  pbind (takeN len i) fun i v =>
  .ok i ⟨ft, len, v⟩

/-- The NTPv4 MAC block: `key_id` (`be_u32`) followed by `take(16)` digest
bytes. -/
structure NtpMac where
  key_id : Nat
  mac : List Nat
deriving DecidableEq, Repr

/-- `NtpMac::parse`: `be_u32` key id then `take(16usize)` digest bytes. -/
def NtpMac.parse (i : List Nat) : PResult NtpMac :=
  pbind (be_u32 i) fun i kid =>
  pbind (takeN 16 i) fun i m =>
  .ok i ⟨kid, m⟩

/-- `complete(parse_ntp_extension)`: nom's `complete` converts
`Err::Incomplete` from the wrapped parser into `Err::Error(Complete)`. -/
def completeExtension (i : List Nat) : PResult NtpExtension :=
  match parse_ntp_extension i with
  | .err .incomplete => .err (.error .complete)
  | .err (.error k) => .err (.error k)
  | .ok rest v => .ok rest v

/-- One iteration step of nom's `many1` loop, specialised to
`complete(parse_ntp_extension)` and driven by explicit fuel so that the
definition is structurally recursive (and hence evaluates by kernel
reduction).  nom's loop aborts with `ErrorKind::Many1` when the inner parser
succeeds without consuming input; since the inner parser never grows its
input, testing for strict decrease of the remaining length is the same
condition.  The fuel is always instantiated with more than the input length,
which `many1ExtGo_fuel_irrelevant` below shows makes the `0` branch
unreachable. -/
def many1ExtGo : Nat → List Nat → List NtpExtension → PResult (List NtpExtension)
  | 0, _, _ => .err (.error .many1)
  | fuel + 1, i, acc =>
    match completeExtension i with
    | .err (.error _) => .ok i acc.reverse
    | .err .incomplete => .err .incomplete
    | .ok i1 v =>
      if i1.length < i.length then many1ExtGo fuel i1 (v :: acc)
      else .err (.error .many1)

/-- `many1(complete(parse_ntp_extension))`: nom's `many1` applies the inner
parser once (propagating its error kind on failure, since `Error::append` is
the identity on nom's plain error type), then loops it, collecting values in
order, until it fails with a normal error. -/
def many1Ext (i : List Nat) : PResult (List NtpExtension) :=
  match completeExtension i with
  | .err .incomplete => .err .incomplete
  | .err (.error k) => .err (.error k)
  | .ok i1 v => many1ExtGo (i1.length + 1) i1 [v]

/-- `try_parse_extensions`: with an empty trailer or exactly 20 trailing
bytes there are no extensions (nothing is consumed); with 1..19 trailing
bytes the result is `Err::Error(Eof)`; otherwise
`map_parser(take(len - 20), many1(complete(parse_ntp_extension)))` carves the
first `len - 20` bytes out and runs `many1` inside that window, discarding
whatever the inner parser left of the window. -/
def try_parse_extensions (i : List Nat) : PResult (List NtpExtension) :=
  if i.isEmpty ∨ i.length = 20 then .ok i []
  else if i.length < 20 then .err (.error .eof)
  else
    match takeN (i.length - 20) i with
    | .ok rest window =>
      match many1Ext window with
      | .ok _ exts => .ok rest exts
      | .err e => .err e
    | .err e => .err e

/-- An NTP version 3 packet: the common header plus the legacy authenticator,
decoded by `opt(complete(take(12usize)))`. -/
structure NtpV3Packet extends HeaderFields where
  authenticator : Option (List Nat)
deriving DecidableEq, Repr

/-- An NTP version 4 packet: the common header, the extension list and the
optional MAC (`Cond(!i.is_empty())`). -/
structure NtpV4Packet extends HeaderFields where
  extensions : List NtpExtension
  auth : Option NtpMac
deriving DecidableEq, Repr

/-- `enum NtpPacket`: the tagged result of `parse_ntp`. -/
inductive NtpPacket where
  | V3 (p : NtpV3Packet)
  | V4 (p : NtpV4Packet)
deriving DecidableEq, Repr

/-- `NtpV3Packet::parse`: the 48-byte header, then
`opt(complete(take(12usize)))` — `take(12)` only ever fails with
`Incomplete`, which `complete` turns into an error and `opt` into `none`
(consuming nothing), so the authenticator is the next 12 bytes when at least
12 remain and `none` otherwise. -/
def NtpV3Packet.parse (i : List Nat) : PResult NtpV3Packet :=
  pbind (parseHeaderFields i) fun i hdr =>
  match takeN 12 i with
  | .ok r a => .ok r ⟨hdr, some a⟩
  | .err _ => .ok i ⟨hdr, none⟩

/-- `NtpV4Packet::parse`: the 48-byte header, then `try_parse_extensions`,
then — only when input remains (`Cond(!i.is_empty())`) — an `NtpMac`. -/
def NtpV4Packet.parse (i : List Nat) : PResult NtpV4Packet :=
  pbind (parseHeaderFields i) fun i hdr =>
  pbind (try_parse_extensions i) fun i exts =>
  if i.isEmpty then .ok i ⟨hdr, exts, none⟩
  else pbind (NtpMac.parse i) fun i m => .ok i ⟨hdr, exts, some m⟩

/-- Public entry point `parse_ntpv3`. -/
def parse_ntpv3 : List Nat → PResult NtpV3Packet := NtpV3Packet.parse

/-- Public entry point `parse_ntpv4`. -/
def parse_ntpv4 : List Nat → PResult NtpV4Packet := NtpV4Packet.parse

/-- `parse_ntp`: peek byte 0 without consuming it, dispatch on bits 5-3:
version 3 parses an `NtpV3Packet`, version 4 an `NtpV4Packet`, anything else
is `Err::Error(Tag)`. -/
def parse_ntp (i : List Nat) : PResult NtpPacket :=
  match be_u8 i with
  | .err e => .err e
  | .ok _ b0 =>
    match (b0 >>> 3) &&& 7 with
    | 3 => pmap NtpPacket.V3 (NtpV3Packet.parse i)
    | 4 => pmap NtpPacket.V4 (NtpV4Packet.parse i)
    | _ => .err (.error .tag)

/-- Wire size of a decoded extension record: the 4-byte type/length header
plus the bytes taken for its value. -/
def extensionWireLength (e : NtpExtension) : Nat := 4 + e.value.length

/-- Total number of input bytes accounted for by a list of decoded extension
records. -/
def extsConsumed (l : List NtpExtension) : Nat :=
  (l.map extensionWireLength).sum

/-- The trailer part of `NtpV4Packet::parse` (everything after the 48-byte
header), abstracted over the already-decoded header fields; `NtpV4Packet
.parse` is definitionally `pbind (parseHeaderFields i) (fun i h => v4Tail h i)`. -/
def v4Tail (hdr : HeaderFields) (i : List Nat) : PResult NtpV4Packet :=
  pbind (try_parse_extensions i) fun i exts =>
  if i.isEmpty then .ok i ⟨hdr, exts, none⟩
  else pbind (NtpMac.parse i) fun i m => .ok i ⟨hdr, exts, some m⟩

/-- Replace the three bit-fields of a decoded v4 packet with the ones byte
`b0` would produce, leaving every other field alone. -/
def withByte0Fields (p : NtpV4Packet) (b0 : Nat) : NtpV4Packet :=
  { p with li := b0 >>> 6, version := (b0 >>> 3) &&& 7, mode := ⟨b0 &&& 7⟩ }

/-- The crate's unit-test vector `NTP_REQ1` (48-byte v4-layout packet). -/
def NTP_REQ1 : List Nat :=
  [0xd9, 0x00, 0x0a, 0xfa, 0x00, 0x00, 0x00, 0x00, 0x00, 0x01, 0x02, 0x90,
   0x00, 0x00, 0x00, 0x00, 0x00, 0x00, 0x00, 0x00, 0x00, 0x00, 0x00, 0x00,
   0x00, 0x00, 0x00, 0x00, 0x00, 0x00, 0x00, 0x00, 0x00, 0x00, 0x00, 0x00,
   0x00, 0x00, 0x00, 0x00, 0xc5, 0x02, 0x04, 0xec, 0xec, 0x42, 0xee, 0x92]

/-- The crate's unit-test vector `NTP_REQ2` (68-byte packet with a MAC). -/
def NTP_REQ2 : List Nat :=
  [0x23, 0x00, 0x00, 0x00, 0x00, 0x00, 0x00, 0x0c, 0x00, 0x00, 0x00, 0x00,
   0x00, 0x00, 0x00, 0x00, 0x00, 0x00, 0x00, 0x00, 0x00, 0x00, 0x00, 0x00,
   0x00, 0x00, 0x00, 0x00, 0x00, 0x00, 0x00, 0x00, 0x00, 0x00, 0x00, 0x00,
   0x00, 0x00, 0x00, 0x00, 0xcc, 0x25, 0xcc, 0x13, 0x2b, 0x02, 0x10, 0x00,
   0x00, 0x00, 0x00, 0x01, 0x52, 0x80, 0x0c, 0x2b, 0x59, 0x00, 0x64, 0x66,
   0x84, 0xf4, 0x4c, 0xa4, 0xee, 0xce, 0x12, 0xb8]

/-- The crate's unit-test vector `NTP_REQ2B` (72-byte packet with one
degenerate extension and a MAC). -/
def NTP_REQ2B : List Nat :=
  [0x23, 0x00, 0x00, 0x00, 0x00, 0x00, 0x00, 0x0c, 0x00, 0x00, 0x00, 0x00,
   0x00, 0x00, 0x00, 0x00, 0x00, 0x00, 0x00, 0x00, 0x00, 0x00, 0x00, 0x00,
   0x00, 0x00, 0x00, 0x00, 0x00, 0x00, 0x00, 0x00, 0x00, 0x00, 0x00, 0x00,
   0x00, 0x00, 0x00, 0x00, 0xcc, 0x25, 0xcc, 0x13, 0x2b, 0x02, 0x10, 0x00,
   0x00, 0x00, 0x00, 0x00, 0x00, 0x00, 0x00, 0x01, 0x52, 0x80, 0x0c, 0x2b,
   0x59, 0x00, 0x64, 0x66, 0x84, 0xf4, 0x4c, 0xa4, 0xee, 0xce, 0x12, 0xb8]

/-- The crate's unit-test vector `NTPV3_REQ` (48-byte v3 packet from the
wireshark captures). -/
def NTPV3_REQ : List Nat :=
  [0x1b, 0x04, 0x06, 0xf5, 0x00, 0x00, 0x10, 0x0d, 0x00, 0x00, 0x05, 0x57,
   0x82, 0xdc, 0x18, 0x18, 0xba, 0x29, 0x66, 0x36, 0x7d, 0xd0, 0x00, 0x00,
   0xba, 0x29, 0x66, 0x36, 0x7d, 0x58, 0x40, 0x00, 0xba, 0x29, 0x66, 0x36,
   0x7d, 0xd0, 0x00, 0x00, 0xba, 0x29, 0x66, 0x76, 0x7d, 0x50, 0x50, 0x00]

/-- 53-byte buffer: version-3 byte 0 (`0x1b`), 48-byte header, 5 trailing
bytes — a remaining length that is neither 0 nor 12. -/
def c1buf : List Nat := 0x1b :: List.replicate 52 0

/-- 60-byte version-3 buffer (byte 0 = `0x18`, version 3) with exactly 12
trailing bytes. -/
def c1wbuf : List Nat := 0x18 :: List.replicate 59 0

/-- 76-byte buffer: 48-byte header, an 8-byte extension whose wire `length`
field is 4 followed by the 4 value bytes `[9,9,9,9]`, then a 20-byte MAC. -/
def c2buf : List Nat :=
  List.replicate 48 0 ++ [0, 0, 0, 4, 9, 9, 9, 9] ++ List.replicate 20 0

/-- 73-byte buffer: 48-byte header, a 25-byte trailer whose 5-byte extension
window holds one 4-byte degenerate extension plus one stray byte `7`, then
the 20-byte MAC. -/
def c3buf : List Nat :=
  List.replicate 48 0 ++ [0, 0, 0, 0, 7] ++ List.replicate 20 0

/-- 69-byte buffer: remaining length after the header is 21, which the
classification calls valid (> 20), with a 1-byte extension window. -/
def c4buf : List Nat := List.replicate 69 0

/-! ### Primitive lemmas -/

theorem be_ok {n : Nat} {i : List Nat} (h : n ≤ i.length) :
    be n i = .ok (i.drop n) (beVal (i.take n)) := by
  unfold be; rw [if_pos h]

theorem be_err {n : Nat} {i : List Nat} (h : i.length < n) :
    be n i = .err .incomplete := by
  unfold be; rw [if_neg (by omega)]

theorem be_drop {i : List Nat} (m n k : Nat) (hk : m + n = k)
    (h : k ≤ i.length) :
    be n (i.drop m) = .ok (i.drop k) (beVal ((i.drop m).take n)) := by
  unfold be
  rw [if_pos (by simp only [List.length_drop]; omega)]
  rw [List.drop_drop, hk]

theorem be_err_drop {i : List Nat} (m n : Nat) (hn : 0 < n)
    (h : i.length < m + n) :
    be n (i.drop m) = .err .incomplete := by
  unfold be
  rw [if_neg (by simp only [List.length_drop]; omega)]

theorem takeN_ok {n : Nat} {i : List Nat} (h : n ≤ i.length) :
    takeN n i = .ok (i.drop n) (i.take n) := by
  unfold takeN; rw [if_pos h]

theorem takeN_err {n : Nat} {i : List Nat} (h : i.length < n) :
    takeN n i = .err .incomplete := by
  unfold takeN; rw [if_neg (by omega)]

theorem beVal_take_one {i : List Nat} {k : Nat} (h : k < i.length) :
    beVal ((i.drop k).take 1) = i.getD k 0 := by
  have hd : (i.drop k).take 1 = [i.get ⟨k, h⟩] := by
    rw [List.drop_eq_getElem_cons h]
    rfl
  have hg : i.getD k 0 = i.get ⟨k, h⟩ := by
    simp [List.getD_eq_getElem?_getD, List.getElem?_eq_getElem h]
  rw [hd, hg]
  simp [beVal]

/-! ### Header characterization -/

/-- The header decoder, fully characterized: with at least 48 bytes it
succeeds, consumes exactly 48 and produces the offset-wise fields of
`headerFieldsOf`; with fewer it fails with `Incomplete`. -/
theorem parseHeaderFields_eq (i : List Nat) :
    parseHeaderFields i =
      if 48 ≤ i.length then .ok (i.drop 48) (headerFieldsOf i)
      else .err .incomplete := by
  by_cases h : 48 ≤ i.length
  · rw [if_pos h]
    unfold parseHeaderFields be_u8 be_i8 be_u32 be_u64
    rw [be_ok (show 1 ≤ i.length by omega)]
    simp only [pbind]
    rw [be_drop 1 1 2 rfl (by omega)]; simp only [pbind]
    rw [be_drop 2 1 3 rfl (by omega)]; simp only [pmap, pbind]
    rw [be_drop 3 1 4 rfl (by omega)]; simp only [pmap, pbind]
    rw [be_drop 4 4 8 rfl (by omega)]; simp only [pbind]
    rw [be_drop 8 4 12 rfl (by omega)]; simp only [pbind]
    rw [be_drop 12 4 16 rfl (by omega)]; simp only [pbind]
    rw [be_drop 16 8 24 rfl (by omega)]; simp only [pbind]
    rw [be_drop 24 8 32 rfl (by omega)]; simp only [pbind]
    rw [be_drop 32 8 40 rfl (by omega)]; simp only [pbind]
    rw [be_drop 40 8 48 rfl (by omega)]; simp only [pbind]
    unfold headerFieldsOf
    rw [beVal_take_one (show 1 < i.length by omega),
        beVal_take_one (show 2 < i.length by omega),
        beVal_take_one (show 3 < i.length by omega)]
    have h0 : beVal (i.take 1) = i.getD 0 0 := by
      have h0' := beVal_take_one (i := i) (k := 0) (by omega)
      simpa using h0'
    rw [h0]
  · rw [if_neg h]
    unfold parseHeaderFields be_u8 be_i8 be_u32 be_u64
    by_cases c1 : 1 ≤ i.length
    case neg => rw [be_err (show i.length < 1 by omega)]; try rfl
    rw [be_ok c1]; simp only [pbind]
    by_cases c2 : 2 ≤ i.length
    case neg => rw [be_err_drop 1 1 (by omega) (by omega)]; try rfl
    rw [be_drop 1 1 2 rfl c2]; simp only [pbind]
    by_cases c3 : 3 ≤ i.length
    case neg => rw [be_err_drop 2 1 (by omega) (by omega)]; try rfl
    rw [be_drop 2 1 3 rfl c3]; simp only [pmap, pbind]
    by_cases c4 : 4 ≤ i.length
    case neg => rw [be_err_drop 3 1 (by omega) (by omega)]; try rfl
    rw [be_drop 3 1 4 rfl c4]; simp only [pmap, pbind]
    by_cases c8 : 8 ≤ i.length
    case neg => rw [be_err_drop 4 4 (by omega) (by omega)]; try rfl
    rw [be_drop 4 4 8 rfl c8]; simp only [pbind]
    by_cases c12 : 12 ≤ i.length
    case neg => rw [be_err_drop 8 4 (by omega) (by omega)]; try rfl
    rw [be_drop 8 4 12 rfl c12]; simp only [pbind]
    by_cases c16 : 16 ≤ i.length
    case neg => rw [be_err_drop 12 4 (by omega) (by omega)]; try rfl
    rw [be_drop 12 4 16 rfl c16]; simp only [pbind]
    by_cases c24 : 24 ≤ i.length
    case neg => rw [be_err_drop 16 8 (by omega) (by omega)]; try rfl
    rw [be_drop 16 8 24 rfl c24]; simp only [pbind]
    by_cases c32 : 32 ≤ i.length
    case neg => rw [be_err_drop 24 8 (by omega) (by omega)]; try rfl
    rw [be_drop 24 8 32 rfl c32]; simp only [pbind]
    by_cases c40 : 40 ≤ i.length
    case neg => rw [be_err_drop 32 8 (by omega) (by omega)]; try rfl
    rw [be_drop 32 8 40 rfl c40]; simp only [pbind]
    rw [be_err_drop 40 8 (by omega) (by omega)]; try rfl

theorem parseHeaderFields_ok {i : List Nat} (h : 48 ≤ i.length) :
    parseHeaderFields i = .ok (i.drop 48) (headerFieldsOf i) := by
  rw [parseHeaderFields_eq, if_pos h]

theorem parseHeaderFields_short {i : List Nat} (h : i.length < 48) :
    parseHeaderFields i = .err .incomplete := by
  rw [parseHeaderFields_eq, if_neg (by omega)]

/-! ### Extension field lemmas -/

/-- Inversion of a successful extension-field decode: the two `u16`s come
from offsets 0-1 and 2-3, the value is exactly the next `length` bytes (so
`4 + length` bytes must be available and exactly `4 + length` are consumed),
and the value holds `length` bytes — the wire `length` is the size of the
value alone, not of the whole field. -/
theorem parse_ntp_extension_ok {i r : List Nat} {e : NtpExtension}
    (h : parse_ntp_extension i = .ok r e) :
    e.field_type = beVal (i.take 2) ∧
    e.length = beVal ((i.drop 2).take 2) ∧
    4 + e.length ≤ i.length ∧
    e.value = (i.drop 4).take e.length ∧
    e.value.length = e.length ∧
    r = i.drop (4 + e.length) := by
  unfold parse_ntp_extension be_u16 at h
  by_cases h2 : 2 ≤ i.length
  · rw [be_ok h2] at h
    simp only [pbind] at h
    by_cases h4 : 4 ≤ i.length
    · rw [be_drop 2 2 4 rfl h4] at h
      simp only [pbind] at h
      by_cases hT : beVal ((i.drop 2).take 2) ≤ (i.drop 4).length
      · rw [takeN_ok hT] at h
        simp only [pbind] at h
        injection h with hrest hval
        subst hrest
        subst hval
        simp only [List.length_drop] at hT
        dsimp only
        refine ⟨rfl, rfl, by omega, rfl, ?_, ?_⟩
        · simp only [List.length_take, List.length_drop]
          omega
        · rw [List.drop_drop]
      · rw [takeN_err (by omega)] at h
        simp only [pbind] at h
        exact PResult.noConfusion h
    · rw [be_err_drop 2 2 (by omega) (by omega)] at h
      simp only [pbind] at h
      exact PResult.noConfusion h
  · rw [be_err (by omega)] at h
    simp only [pbind] at h
    exact PResult.noConfusion h

theorem completeExtension_ok {i r : List Nat} {e : NtpExtension}
    (h : completeExtension i = .ok r e) : parse_ntp_extension i = .ok r e := by
  unfold completeExtension at h
  split at h
  · simp at h
  · simp at h
  · rename_i rest v heq
    rw [heq]
    exact h

/-- A successful `complete(parse_ntp_extension)` consumes exactly
`4 + value.length` bytes. -/
theorem completeExtension_consumes {i r : List Nat} {e : NtpExtension}
    (h : completeExtension i = .ok r e) :
    r.length + (4 + e.value.length) = i.length := by
  obtain ⟨-, -, hb, -, hv, hr⟩ := parse_ntp_extension_ok (completeExtension_ok h)
  subst hr
  simp only [List.length_drop]
  omega

/-- The fuel argument of `many1ExtGo` is irrelevant as long as it exceeds the
input length, so the `0` branch of the definition is unreachable for the
fuel `many1Ext` supplies. -/
theorem many1ExtGo_fuel : ∀ (f1 f2 : Nat) (i : List Nat)
    (acc : List NtpExtension), i.length < f1 → i.length < f2 →
    many1ExtGo f1 i acc = many1ExtGo f2 i acc := by
  intro f1
  induction f1 with
  | zero => intro f2 i acc h1 _; omega
  | succ f ih =>
    intro f2 i acc h1 h2
    cases f2 with
    | zero => omega
    | succ f2' =>
      unfold many1ExtGo
      cases hce : completeExtension i with
      | ok i1 v =>
        have hlen : i1.length + (4 + v.value.length) = i.length :=
          completeExtension_consumes hce
        show (if i1.length < i.length then many1ExtGo f i1 (v :: acc)
              else .err (.error .many1)) =
             (if i1.length < i.length then many1ExtGo f2' i1 (v :: acc)
              else .err (.error .many1))
        by_cases hlt : i1.length < i.length
        · rw [if_pos hlt, if_pos hlt]
          exact ih f2' i1 (v :: acc) (by omega) (by omega)
        · rw [if_neg hlt, if_neg hlt]
      | err e =>
        cases e with
        | incomplete => rfl
        | error k => rfl

/-- Loop invariant of nom's `many1` loop: on success, the bytes accounted
for by the newly decoded extensions plus the leftover input equal the input
the loop started from, and the result extends the accumulator. -/
theorem many1ExtGo_consumes : ∀ (fuel : Nat) (i : List Nat)
    (acc exts : List NtpExtension) (r : List Nat), i.length < fuel →
    many1ExtGo fuel i acc = .ok r exts →
    extsConsumed exts + r.length = extsConsumed acc + i.length ∧
    ∃ tl, exts = acc.reverse ++ tl := by
  intro fuel
  induction fuel with
  | zero => intro i acc exts r h1 _; omega
  | succ f ih =>
    intro i acc exts r h1 h2
    unfold many1ExtGo at h2
    split at h2
    · -- completeExtension i = .err (.error _): loop exits returning acc
      injection h2 with hrest hval
      subst hrest
      subst hval
      refine ⟨?_, [], by simp⟩
      simp [extsConsumed, List.map_reverse, List.sum_reverse]
    · -- .err .incomplete propagates
      simp at h2
    · -- .ok i1 v
      rename_i i1 v heq
      have hlen : i1.length + (4 + v.value.length) = i.length :=
        completeExtension_consumes heq
      by_cases hlt : i1.length < i.length
      · rw [if_pos hlt] at h2
        obtain ⟨hsum, tl, htl⟩ := ih i1 (v :: acc) exts r (by omega) h2
        constructor
        · have hacc : extsConsumed (v :: acc) =
              extensionWireLength v + extsConsumed acc := by
            simp [extsConsumed]
          have hw : extensionWireLength v = 4 + v.value.length := rfl
          omega
        · refine ⟨v :: tl, ?_⟩
          rw [htl]
          simp
      · rw [if_neg hlt] at h2
        simp at h2

/-- On success `many1(complete(parse_ntp_extension))` returns at least one
extension, and the decoded extensions plus the bytes it left unread account
exactly for its input. -/
theorem many1Ext_ok {w r : List Nat} {exts : List NtpExtension}
    (h : many1Ext w = .ok r exts) :
    extsConsumed exts + r.length = w.length ∧ exts ≠ [] := by
  unfold many1Ext at h
  split at h
  · simp at h
  · simp at h
  · rename_i i1 v heq
    have hc := completeExtension_consumes heq
    obtain ⟨hsum, tl, htl⟩ :=
      many1ExtGo_consumes (i1.length + 1) i1 [v] exts r (by omega) h
    constructor
    · have hone : extsConsumed [v] = 4 + v.value.length := by
        simp [extsConsumed, extensionWireLength]
      omega
    · rw [htl]
      simp

/-! ### Trailer lemmas -/

theorem try_parse_extensions_nil : try_parse_extensions [] = .ok [] [] := by
  decide

theorem try_parse_extensions_twenty {i : List Nat} (h : i.length = 20) :
    try_parse_extensions i = .ok i [] := by
  unfold try_parse_extensions
  rw [if_pos (Or.inr h)]

theorem try_parse_extensions_short {i : List Nat} (h1 : 1 ≤ i.length)
    (h2 : i.length ≤ 19) :
    try_parse_extensions i = .err (.error .eof) := by
  unfold try_parse_extensions
  rw [if_neg, if_pos (by omega)]
  rintro (he | he)
  · rw [List.isEmpty_iff] at he
    subst he
    simp at h1
  · omega

theorem try_parse_extensions_long_ok {i rr : List Nat}
    {exts : List NtpExtension} (h : 20 < i.length)
    (hm : many1Ext (i.take (i.length - 20)) = .ok rr exts) :
    try_parse_extensions i = .ok (i.drop (i.length - 20)) exts := by
  unfold try_parse_extensions
  rw [if_neg, if_neg (by omega)]
  · rw [takeN_ok (by omega)]
    show (match many1Ext (i.take (i.length - 20)) with
          | PResult.ok _ exts => PResult.ok (i.drop (i.length - 20)) exts
          | PResult.err e => PResult.err e) = _
    rw [hm]
  · rintro (he | he)
    · rw [List.isEmpty_iff] at he
      subst he
      simp at h
    · omega

theorem try_parse_extensions_long_err {i : List Nat} {e : NomErr}
    (h : 20 < i.length)
    (hm : many1Ext (i.take (i.length - 20)) = .err e) :
    try_parse_extensions i = .err e := by
  unfold try_parse_extensions
  rw [if_neg, if_neg (by omega)]
  · rw [takeN_ok (by omega)]
    show (match many1Ext (i.take (i.length - 20)) with
          | PResult.ok _ exts => PResult.ok (i.drop (i.length - 20)) exts
          | PResult.err e => PResult.err e) = _
    rw [hm]
  · rintro (he | he)
    · rw [List.isEmpty_iff] at he
      subst he
      simp at h
    · omega

theorem NtpMac_parse_ok {i : List Nat} (h : 20 ≤ i.length) :
    NtpMac.parse i = .ok (i.drop 20) ⟨beVal (i.take 4), (i.drop 4).take 16⟩ := by
  unfold NtpMac.parse be_u32
  rw [be_ok (by omega)]
  simp only [pbind]
  rw [takeN_ok (by simp only [List.length_drop]; omega)]
  simp only [pbind]
  rw [List.drop_drop]

/-! ### Full v4 decode, by trailer length -/

/-- A 48-byte buffer decodes to the bare header: no extensions, no MAC,
nothing left over. -/
theorem parse_ntpv4_len48 {i : List Nat} (h : i.length = 48) :
    parse_ntpv4 i = .ok [] ⟨headerFieldsOf i, [], none⟩ := by
  unfold parse_ntpv4 NtpV4Packet.parse
  rw [parseHeaderFields_ok (by omega)]
  simp only [pbind]
  rw [List.drop_eq_nil_of_le (by omega), try_parse_extensions_nil]
  simp only [pbind]
  rfl

/-- A buffer with 1..19 trailing bytes after the header fails with
`Error(Eof)` — the spec's `InvalidLength`. -/
theorem parse_ntpv4_len49to67 {i : List Nat} (h1 : 49 ≤ i.length)
    (h2 : i.length ≤ 67) :
    parse_ntpv4 i = .err (.error .eof) := by
  unfold parse_ntpv4 NtpV4Packet.parse
  rw [parseHeaderFields_ok (by omega)]
  simp only [pbind]
  rw [try_parse_extensions_short (by simp only [List.length_drop]; omega)
    (by simp only [List.length_drop]; omega)]

/-- A buffer with exactly 20 trailing bytes decodes to empty extensions plus
a MAC made from those 20 bytes, consuming everything. -/
theorem parse_ntpv4_len68 {i : List Nat} (h : i.length = 68) :
    parse_ntpv4 i = .ok [] ⟨headerFieldsOf i, [],
      some ⟨beVal ((i.drop 48).take 4), (i.drop 52).take 16⟩⟩ := by
  unfold parse_ntpv4 NtpV4Packet.parse
  rw [parseHeaderFields_ok (by omega)]
  simp only [pbind]
  rw [try_parse_extensions_twenty (by simp only [List.length_drop]; omega)]
  simp only [pbind]
  rw [if_neg (by
    rw [List.isEmpty_iff]
    intro he
    have hl := congrArg List.length he
    simp only [List.length_drop, List.length_nil] at hl
    omega)]
  rw [NtpMac_parse_ok (by simp only [List.length_drop]; omega)]
  simp only [pbind]
  rw [show (i.drop 48).drop 20 = ([] : List Nat) by
    rw [List.drop_drop]
    exact List.drop_eq_nil_of_le (by omega)]
  rw [show (i.drop 48).drop 4 = i.drop 52 by
    rw [List.drop_drop]]

/-- A buffer with more than 20 trailing bytes, whose first
`length − 68` trailing bytes parse as a nonempty run of extensions, decodes
to those extensions plus a MAC made from the final 20 bytes, consuming
everything. -/
theorem parse_ntpv4_long_ok {i rr : List Nat} {exts : List NtpExtension}
    (h : 68 < i.length)
    (hm : many1Ext ((i.drop 48).take (i.length - 68)) = .ok rr exts) :
    parse_ntpv4 i = .ok [] ⟨headerFieldsOf i, exts,
      some ⟨beVal ((i.drop (i.length - 20)).take 4),
            (i.drop (i.length - 16)).take 16⟩⟩ := by
  have harith : (i.drop 48).length - 20 = i.length - 68 := by
    simp only [List.length_drop]
    omega
  unfold parse_ntpv4 NtpV4Packet.parse
  rw [parseHeaderFields_ok (by omega)]
  simp only [pbind]
  rw [try_parse_extensions_long_ok
    (by simp only [List.length_drop]; omega)
    (by rw [harith]; exact hm)]
  simp only [pbind]
  rw [harith]
  have hrest : (i.drop 48).drop (i.length - 68) = i.drop (i.length - 20) := by
    rw [List.drop_drop]
    congr 1
    omega
  rw [hrest]
  rw [if_neg (by
    rw [List.isEmpty_iff]
    intro he
    have hl := congrArg List.length he
    simp only [List.length_drop, List.length_nil] at hl
    omega)]
  rw [NtpMac_parse_ok (by simp only [List.length_drop]; omega)]
  simp only [pbind]
  rw [show (i.drop (i.length - 20)).drop 20 = [] by
    rw [List.drop_drop]
    exact List.drop_eq_nil_of_le (by omega)]
  rw [show (i.drop (i.length - 20)).drop 4 = i.drop (i.length - 16) by
    rw [List.drop_drop]
    congr 1
    omega]

/-- A buffer with more than 20 trailing bytes whose extension window does not
parse propagates the inner `many1` error. -/
theorem parse_ntpv4_long_err {i : List Nat} {e : NomErr}
    (h : 68 < i.length)
    (hm : many1Ext ((i.drop 48).take (i.length - 68)) = .err e) :
    parse_ntpv4 i = .err e := by
  have harith : (i.drop 48).length - 20 = i.length - 68 := by
    simp only [List.length_drop]
    omega
  unfold parse_ntpv4 NtpV4Packet.parse
  rw [parseHeaderFields_ok (by omega)]
  simp only [pbind]
  rw [try_parse_extensions_long_err
    (by simp only [List.length_drop]; omega)
    (by rw [harith]; exact hm)]

/-! ### Helper facts for the claim theorems -/

theorem parse_ntpv4_short {i : List Nat} (h : i.length < 48) :
    parse_ntpv4 i = .err .incomplete := by
  unfold parse_ntpv4 NtpV4Packet.parse
  rw [parseHeaderFields_short h]
  rfl

theorem parse_ntpv3_short {i : List Nat} (h : i.length < 48) :
    parse_ntpv3 i = .err .incomplete := by
  unfold parse_ntpv3 NtpV3Packet.parse
  rw [parseHeaderFields_short h]
  rfl

/-- Any successful v4 decode had at least 48 input bytes and carries exactly
the offset-wise header fields of the buffer. -/
theorem parse_ntpv4_header {i r : List Nat} {p : NtpV4Packet}
    (h : parse_ntpv4 i = .ok r p) :
    48 ≤ i.length ∧ p.toHeaderFields = headerFieldsOf i := by
  by_cases hA : i.length < 48
  · rw [parse_ntpv4_short hA] at h
    exact PResult.noConfusion h
  · refine ⟨by omega, ?_⟩
    unfold parse_ntpv4 NtpV4Packet.parse at h
    rw [parseHeaderFields_ok (by omega)] at h
    simp only [pbind] at h
    cases htr : try_parse_extensions (i.drop 48) with
    | err e =>
      rw [htr] at h
      simp only [pbind] at h
      exact PResult.noConfusion h
    | ok i2 exts =>
      rw [htr] at h
      simp only [pbind] at h
      by_cases hemp : i2.isEmpty
      · rw [if_pos hemp] at h
        injection h with h1 h2
        rw [← h2]
      · rw [if_neg hemp] at h
        cases hmac : NtpMac.parse i2 with
        | err e =>
          rw [hmac] at h
          simp only [pbind] at h
          exact PResult.noConfusion h
        | ok i3 m =>
          rw [hmac] at h
          simp only [pbind] at h
          injection h with h1 h2
          rw [← h2]

/-- Any successful v3 decode had at least 48 input bytes and carries exactly
the offset-wise header fields of the buffer. -/
theorem parse_ntpv3_header {i r : List Nat} {p : NtpV3Packet}
    (h : parse_ntpv3 i = .ok r p) :
    48 ≤ i.length ∧ p.toHeaderFields = headerFieldsOf i := by
  by_cases hA : i.length < 48
  · rw [parse_ntpv3_short hA] at h
    exact PResult.noConfusion h
  · refine ⟨by omega, ?_⟩
    unfold parse_ntpv3 NtpV3Packet.parse at h
    rw [parseHeaderFields_ok (by omega)] at h
    simp only [pbind] at h
    cases htk : takeN 12 (i.drop 48) with
    | ok r2 a =>
      rw [htk] at h
      injection h with h1 h2
      rw [← h2]
    | err e =>
      rw [htk] at h
      injection h with h1 h2
      rw [← h2]

/-- Bit-field ranges follow from byte 0 being an octet: the shift keeps li
below 4, the masks keep version and mode below 8. -/
theorem headerFieldsOf_ranges {i : List Nat} (h48 : 48 ≤ i.length)
    (hoct : ∀ b ∈ i, b < 256) :
    (headerFieldsOf i).li ≤ 3 ∧ (headerFieldsOf i).version ≤ 7 ∧
    (headerFieldsOf i).mode.val ≤ 7 := by
  have hb : i.getD 0 0 < 256 := by
    cases i with
    | nil => simp at h48
    | cons a t => exact hoct a (by simp)
  refine ⟨?_, ?_, ?_⟩
  · show (i.getD 0 0) >>> 6 ≤ 3
    rw [Nat.shiftRight_eq_div_pow]
    have h2 : i.getD 0 0 / 2 ^ 6 ≤ 255 / 2 ^ 6 := Nat.div_le_div_right (by omega)
    exact le_trans h2 (by norm_num)
  · show ((i.getD 0 0) >>> 3) &&& 7 ≤ 7
    exact Nat.and_le_right
  · show (i.getD 0 0) &&& 7 ≤ 7
    exact Nat.and_le_right

theorem parse_ntpv4_eq_tail (i : List Nat) :
    parse_ntpv4 i = pbind (parseHeaderFields i) (fun i2 hdr => v4Tail hdr i2) :=
  rfl

/-- Only the three byte-0 bit-fields of the result depend on the header
record handed to the v4 trailer decoder; substituting the header fields of a
buffer with a different byte 0 commutes with the whole trailer decode. -/
theorem v4Tail_byte0 (b0 b0' : Nat) (rest : List Nat) (i2 : List Nat) :
    v4Tail (headerFieldsOf (b0' :: rest)) i2 =
      pmap (fun p => withByte0Fields p b0')
        (v4Tail (headerFieldsOf (b0 :: rest)) i2) := by
  unfold v4Tail
  cases htr : try_parse_extensions i2 with
  | err e => simp only [pbind, pmap]
  | ok i3 exts =>
    simp only [pbind]
    by_cases hemp : i3.isEmpty
    · rw [if_pos hemp, if_pos hemp]
      simp only [pmap]
      rfl
    · rw [if_neg hemp, if_neg hemp]
      cases hmac : NtpMac.parse i3 with
      | err e => simp only [pbind, pmap]
      | ok i4 m =>
        simp only [pbind, pmap]
        rfl

/-! ### The crate's unit tests, reproduced against the embedding -/

/-- `test_ntp_packet_simple`: `NTP_REQ1` decodes as in the crate's test. -/
theorem test_ntp_packet_simple :
    parse_ntpv4 NTP_REQ1 =
      .ok [] ⟨⟨3, 3, ⟨1⟩, 0, 10, -6, 0, 0x010290, 0, 0, 0, 0,
        14195914391047827090⟩, [], none⟩ := by
  decide

/-- `test_ntp_packet_mac`: `NTP_REQ2` decodes as in the crate's test, with
`key_id = 1` and the final 16 bytes as digest. -/
theorem test_ntp_packet_mac :
    parse_ntpv4 NTP_REQ2 =
      .ok [] ⟨⟨0, 4, ⟨3⟩, 0, 0, 0, 12, 0, 0, 0, 0, 0,
        14710388140573593600⟩, [],
        some ⟨1, [0x52, 0x80, 0x0c, 0x2b, 0x59, 0x00, 0x64, 0x66,
                  0x84, 0xf4, 0x4c, 0xa4, 0xee, 0xce, 0x12, 0xb8]⟩⟩ := by
  decide

/-- `test_ntp_packet_extension`: `NTP_REQ2B` decodes as in the crate's test,
with one degenerate extension `{field_type := 0, length := 0, value := []}`. -/
theorem test_ntp_packet_extension :
    parse_ntpv4 NTP_REQ2B =
      .ok [] ⟨⟨0, 4, ⟨3⟩, 0, 0, 0, 12, 0, 0, 0, 0, 0,
        14710388140573593600⟩, [⟨0, 0, []⟩],
        some ⟨1, [0x52, 0x80, 0x0c, 0x2b, 0x59, 0x00, 0x64, 0x66,
                  0x84, 0xf4, 0x4c, 0xa4, 0xee, 0xce, 0x12, 0xb8]⟩⟩ := by
  decide

/-- `test_ntp_packet_v3`: `NTPV3_REQ` decodes as in the crate's test, with no
authenticator. -/
theorem test_ntp_packet_v3 :
    parse_ntpv3 NTPV3_REQ =
      .ok [] ⟨⟨0, 3, ⟨3⟩, 4, 6, -11, 4109, 0x0557, 0x82dc1818,
        0xba2966367dd00000, 0xba2966367d584000, 0xba2966367dd00000,
        0xba2966767d505000⟩, none⟩ := by
  decide

/-! ### Claim theorems -/

/-- Claim C1, counterexample: `c1buf` has version 3 and nonzero remaining
length 5 ≠ 12 after the 48-byte header, yet decoding does not fail — it
succeeds with `authenticator = none`, leaving the 5 bytes unconsumed.  This
refutes "decoding fails with an error for every other nonzero remaining
length". -/
theorem C1_counterexample :
    c1buf.length = 53 ∧ ((c1buf.getD 0 0) >>> 3) &&& 7 = 3 ∧
    parse_ntpv3 c1buf =
      .ok (List.replicate 5 0)
        ⟨⟨0, 3, ⟨3⟩, 0, 0, 0, 0, 0, 0, 0, 0, 0, 0⟩, none⟩ := by
  decide

/-- Claim C1, amended: for every buffer whose version field is 3 and whose
length is at least 48, the decoded `NtpV3Packet` has a `some` authenticator
if and only if at least 12 bytes remain after the 48-byte header — the
authenticator being the first 12 of them — and no remaining length causes an
error: with fewer than 12 remaining bytes the authenticator is `none` and
the trailing bytes are left unconsumed. -/
theorem C1_v3_authenticator (i : List Nat) (h48 : 48 ≤ i.length)
    (_hv : ((i.getD 0 0) >>> 3) &&& 7 = 3) :
    parse_ntpv3 i =
      if 12 ≤ i.length - 48 then
        .ok (i.drop 60) ⟨headerFieldsOf i, some ((i.drop 48).take 12)⟩
      else
        .ok (i.drop 48) ⟨headerFieldsOf i, none⟩ := by
  unfold parse_ntpv3 NtpV3Packet.parse
  rw [parseHeaderFields_ok h48]
  simp only [pbind]
  by_cases h12 : 12 ≤ i.length - 48
  · rw [if_pos h12]
    rw [takeN_ok (by simp only [List.length_drop]; omega)]
    rw [show (i.drop 48).drop 12 = i.drop 60 by rw [List.drop_drop]]
  · rw [if_neg h12]
    rw [takeN_err (by simp only [List.length_drop]; omega)]

/-- Witness for C1: the amended theorem applied to the concrete 60-byte
version-3 buffer `c1wbuf`, whose 12 trailing bytes become the
authenticator. -/
theorem C1_v3_authenticator_witness :
    parse_ntpv3 c1wbuf =
      .ok [] ⟨⟨0, 3, ⟨0⟩, 0, 0, 0, 0, 0, 0, 0, 0, 0, 0⟩,
        some (List.replicate 12 0)⟩ := by
  rw [C1_v3_authenticator c1wbuf (by decide) (by decide)]
  decide

/-- Claim C2, counterexample: `c2buf` decodes successfully into one
extension whose wire `length` is 4 and whose value is the 4 bytes
`[9,9,9,9]` — `length` bytes, not `length − 4 = 0` bytes — refuting "the
value component consists of exactly length − 4 bytes". -/
theorem C2_counterexample :
    parse_ntpv4 c2buf =
      .ok [] ⟨⟨0, 0, ⟨0⟩, 0, 0, 0, 0, 0, 0, 0, 0, 0, 0⟩,
        [⟨0, 4, [9, 9, 9, 9]⟩], some ⟨0, List.replicate 16 0⟩⟩ ∧
    ([9, 9, 9, 9] : List Nat).length ≠ 4 - 4 := by
  decide

/-- Claim C2, amended: for every successfully decoded extension field the
value component consists of exactly `length` bytes — the wire-declared u16
is read as the byte count of the value alone, excluding the 4-byte header —
and those bytes are the ones following the 4-byte header. -/
theorem C2_value_length (i r : List Nat) (e : NtpExtension)
    (h : parse_ntp_extension i = .ok r e) :
    e.value.length = e.length ∧ e.value = (i.drop 4).take e.length := by
  obtain ⟨-, -, -, hv, hl, -⟩ := parse_ntp_extension_ok h
  exact ⟨hl, hv⟩

/-- Witness for C2: the amended theorem applied to the 8-byte extension
`[0,0,0,4,9,9,9,9]`. -/
theorem C2_value_length_witness :
    (⟨0, 4, [9, 9, 9, 9]⟩ : NtpExtension).value.length = 4 := by
  have hw := C2_value_length [0, 0, 0, 4, 9, 9, 9, 9] []
    ⟨0, 4, [9, 9, 9, 9]⟩ (by decide)
  exact hw.1

/-- Claim C3, counterexample: `c3buf` (73 bytes, 25-byte trailer) decodes
successfully, but its single decoded extension accounts for only 4 of the 5
window bytes, so 48 + extension bytes + 20 = 72 ≠ 73: the stray byte `7`
inside the extension window is silently skipped, refuting "no byte of that
region is skipped or left unaccounted for by the decoded record". -/
theorem C3_counterexample :
    parse_ntpv4 c3buf =
      .ok [] ⟨⟨0, 0, ⟨0⟩, 0, 0, 0, 0, 0, 0, 0, 0, 0, 0⟩,
        [⟨0, 0, []⟩], some ⟨0, List.replicate 16 0⟩⟩ ∧
    c3buf.length = 73 ∧
    48 + extsConsumed [(⟨0, 0, []⟩ : NtpExtension)] + 20 = 72 := by
  decide

/-- Claim C3, amended: every successful v4 decode consumes its whole buffer
(nothing is left over), and the 48-byte header plus the bytes accounted for
by the decoded extensions plus the authenticator block fit within the
buffer: `48 + extensions + auth ≤ length`, with equality whenever the
extension window is fully covered — but window bytes that do not form a
complete extension field are skipped, so the sum can fall short. -/
theorem C3_region_accounting (i r : List Nat) (p : NtpV4Packet)
    (h : parse_ntpv4 i = .ok r p) :
    r = [] ∧
    48 + extsConsumed p.extensions +
      (if p.auth.isSome then 20 else 0) ≤ i.length := by
  by_cases hA : i.length < 48
  · rw [parse_ntpv4_short hA] at h
    exact PResult.noConfusion h
  by_cases hB : i.length = 48
  · rw [parse_ntpv4_len48 hB] at h
    injection h with h1 h2
    subst h1
    subst h2
    refine ⟨rfl, ?_⟩
    show 48 + extsConsumed [] + 0 ≤ i.length
    simp [extsConsumed]
    omega
  by_cases hC : i.length ≤ 67
  · rw [parse_ntpv4_len49to67 (by omega) hC] at h
    exact PResult.noConfusion h
  by_cases hD : i.length = 68
  · rw [parse_ntpv4_len68 hD] at h
    injection h with h1 h2
    subst h1
    subst h2
    refine ⟨rfl, ?_⟩
    show 48 + extsConsumed [] + 20 ≤ i.length
    simp [extsConsumed]
    omega
  · have hE : 68 < i.length := by omega
    cases hm : many1Ext ((i.drop 48).take (i.length - 68)) with
    | ok rr exts =>
      rw [parse_ntpv4_long_ok hE hm] at h
      injection h with h1 h2
      subst h1
      subst h2
      obtain ⟨hsum, -⟩ := many1Ext_ok hm
      have hwin : ((i.drop 48).take (i.length - 68)).length = i.length - 68 := by
        simp only [List.length_take, List.length_drop]
        omega
      rw [hwin] at hsum
      refine ⟨rfl, ?_⟩
      show 48 + extsConsumed exts + 20 ≤ i.length
      omega
    | err e =>
      rw [parse_ntpv4_long_err hE hm] at h
      exact PResult.noConfusion h

/-- Witness for C3: the accounting theorem applied to the concrete test
vector `NTP_REQ2B` (72 bytes: header + 4-byte extension + 20-byte MAC, an
exact-fit case). -/
theorem C3_region_accounting_witness :
    48 + extsConsumed [(⟨0, 0, []⟩ : NtpExtension)] +
      (if (some (⟨1, [0x52, 0x80, 0x0c, 0x2b, 0x59, 0x00, 0x64, 0x66,
        0x84, 0xf4, 0x4c, 0xa4, 0xee, 0xce, 0x12, 0xb8]⟩ : NtpMac)).isSome
       then 20 else 0) ≤ NTP_REQ2B.length := by
  have hw := C3_region_accounting NTP_REQ2B []
    ⟨⟨0, 4, ⟨3⟩, 0, 0, 0, 12, 0, 0, 0, 0, 0, 14710388140573593600⟩,
      [⟨0, 0, []⟩],
      some ⟨1, [0x52, 0x80, 0x0c, 0x2b, 0x59, 0x00, 0x64, 0x66,
                0x84, 0xf4, 0x4c, 0xa4, 0xee, 0xce, 0x12, 0xb8]⟩⟩ (by decide)
  exact hw.2

/-- Claim C4, counterexample: `c4buf` is 69 bytes, so its remaining length
R = 21 is classified valid (R > 20), yet decode fails (with
`Error(Complete)`: the 1-byte extension window cannot hold any extension),
refuting "decode succeeds" for every classified-valid R. -/
theorem C4_counterexample :
    c4buf.length = 69 ∧ 20 < c4buf.length - 48 ∧
    parse_ntpv4 c4buf = .err (.error .complete) := by
  decide

/-- Claim C4, amended: with R = 0 decode succeeds with no extensions and no
authenticator; with R = 20 it succeeds with an authenticator only; with
R > 20 it succeeds if and only if the leading R − 20 trailer bytes parse as
one or more extension fields, and in that case the whole buffer is consumed
(`consumed = 48 + R`), the extensions come from that window and the final 20
bytes form the authenticator; when that window does not parse, decode fails
with the inner extension-parsing error. -/
theorem C4_tail_classification (i : List Nat) :
    (i.length = 48 → parse_ntpv4 i = .ok [] ⟨headerFieldsOf i, [], none⟩) ∧
    (i.length = 68 → parse_ntpv4 i = .ok [] ⟨headerFieldsOf i, [],
        some ⟨beVal ((i.drop 48).take 4), (i.drop 52).take 16⟩⟩) ∧
    (68 < i.length →
      (∀ rr exts, many1Ext ((i.drop 48).take (i.length - 68)) = .ok rr exts →
        parse_ntpv4 i = .ok [] ⟨headerFieldsOf i, exts,
          some ⟨beVal ((i.drop (i.length - 20)).take 4),
                (i.drop (i.length - 16)).take 16⟩⟩) ∧
      (∀ e, many1Ext ((i.drop 48).take (i.length - 68)) = .err e →
        parse_ntpv4 i = .err e)) := by
  refine ⟨fun h => parse_ntpv4_len48 h, fun h => parse_ntpv4_len68 h,
    fun h => ⟨?_, ?_⟩⟩
  · intro rr exts hm
    exact parse_ntpv4_long_ok h hm
  · intro e hm
    exact parse_ntpv4_long_err h hm

/-- Witness for C4: the amended theorem applied at the concrete 68-byte test
vector `NTP_REQ2` (the R = 20 branch). -/
theorem C4_tail_classification_witness :
    parse_ntpv4 NTP_REQ2 = .ok [] ⟨headerFieldsOf NTP_REQ2, [],
      some ⟨beVal ((NTP_REQ2.drop 48).take 4), (NTP_REQ2.drop 52).take 16⟩⟩ :=
  (C4_tail_classification NTP_REQ2).2.1 (by decide)

/-- Claim C5: a v4 buffer whose remaining byte count after the header is
between 1 and 19 inclusive fails with exactly the `InvalidLength` error
(nom `Error(Eof)`) and no other error kind. -/
theorem C5_invalid_length (i : List Nat) (h48 : 48 ≤ i.length)
    (h1 : 1 ≤ i.length - 48) (h2 : i.length - 48 ≤ 19) :
    parse_ntpv4 i = .err InvalidLength :=
  parse_ntpv4_len49to67 (by omega) (by omega)

/-- Witness for C5: a 58-byte buffer (post-header length 10, the spec's
scenario D). -/
theorem C5_invalid_length_witness :
    parse_ntpv4 (List.replicate 58 0) = .err InvalidLength :=
  C5_invalid_length (List.replicate 58 0) (by decide) (by decide) (by decide)

/-- Claim C6: every buffer of fewer than 48 bytes makes both the v4 and the
v3 decoder fail with `TruncatedInput` (nom `Incomplete`); no packet value is
produced. -/
theorem C6_truncated (i : List Nat) (h : i.length < 48) :
    parse_ntpv4 i = .err TruncatedInput ∧
    parse_ntpv3 i = .err TruncatedInput :=
  ⟨parse_ntpv4_short h, parse_ntpv3_short h⟩

/-- Witness for C6: a 30-byte buffer (the spec's scenario E). -/
theorem C6_truncated_witness :
    parse_ntpv4 (List.replicate 30 0) = .err TruncatedInput ∧
    parse_ntpv3 (List.replicate 30 0) = .err TruncatedInput :=
  C6_truncated (List.replicate 30 0) (by decide)

/-- Claim C7: whenever bits 5-3 of byte 0 are neither 3 nor 4, the top-level
`parse_ntp` fails with exactly `UnsupportedVersion` (nom `Error(Tag)`). -/
theorem C7_unsupported_version (b0 : Nat) (rest : List Nat)
    (h3 : (b0 >>> 3) &&& 7 ≠ 3) (h4 : (b0 >>> 3) &&& 7 ≠ 4) :
    parse_ntp (b0 :: rest) = .err UnsupportedVersion := by
  have hb : be 1 (b0 :: rest) = .ok rest b0 := by
    unfold be
    rw [if_pos (by simp only [List.length_cons]; omega)]
    simp [beVal]
  unfold parse_ntp be_u8
  rw [hb]
  split
  · rename_i e heq
    exact PResult.noConfusion heq
  · rename_i r2 b2 heq
    injection heq with he1 he2
    subst he1
    subst he2
    split
    · rename_i heq2
      exact absurd heq2 h3
    · rename_i heq2
      exact absurd heq2 h4
    · rfl

/-- Witness for C7: byte 0 = 40 encodes version 5 (the spec's scenario F). -/
theorem C7_unsupported_version_witness :
    parse_ntp (40 :: List.replicate 47 0) = .err UnsupportedVersion :=
  C7_unsupported_version 40 (List.replicate 47 0) (by decide) (by decide)

/-- Claim C8: for every successfully decoded packet — v4 or v3 — `li` lies in
[0,3], `version` in [0,7] and the mode value in [0,7]; this is forced by the
extraction of the three fields from byte 0 (an octet) by shifting and
masking, not by any runtime range check. -/
theorem C8_bitfield_ranges (i : List Nat) (hoct : ∀ b ∈ i, b < 256) :
    (∀ r p, parse_ntpv4 i = .ok r p →
      p.li ≤ 3 ∧ p.version ≤ 7 ∧ p.mode.val ≤ 7) ∧
    (∀ r p, parse_ntpv3 i = .ok r p →
      p.li ≤ 3 ∧ p.version ≤ 7 ∧ p.mode.val ≤ 7) := by
  constructor
  · intro r p h
    obtain ⟨h48, hhdr⟩ := parse_ntpv4_header h
    show p.toHeaderFields.li ≤ 3 ∧ p.toHeaderFields.version ≤ 7 ∧
      p.toHeaderFields.mode.val ≤ 7
    rw [hhdr]
    exact headerFieldsOf_ranges h48 hoct
  · intro r p h
    obtain ⟨h48, hhdr⟩ := parse_ntpv3_header h
    show p.toHeaderFields.li ≤ 3 ∧ p.toHeaderFields.version ≤ 7 ∧
      p.toHeaderFields.mode.val ≤ 7
    rw [hhdr]
    exact headerFieldsOf_ranges h48 hoct

/-- Witness for C8: the range theorem applied to the concrete test vector
`NTP_REQ1` (decoded li = 3, version = 3, mode = 1). -/
theorem C8_bitfield_ranges_witness :
    (⟨⟨3, 3, ⟨1⟩, 0, 10, -6, 0, 0x010290, 0, 0, 0, 0,
        14195914391047827090⟩, [], none⟩ : NtpV4Packet).li ≤ 3 ∧
    (⟨⟨3, 3, ⟨1⟩, 0, 10, -6, 0, 0x010290, 0, 0, 0, 0,
        14195914391047827090⟩, [], none⟩ : NtpV4Packet).version ≤ 7 ∧
    (⟨⟨3, 3, ⟨1⟩, 0, 10, -6, 0, 0x010290, 0, 0, 0, 0,
        14195914391047827090⟩, [], none⟩ : NtpV4Packet).mode.val ≤ 7 :=
  (C8_bitfield_ranges NTP_REQ1 (by decide)).1 []
    ⟨⟨3, 3, ⟨1⟩, 0, 10, -6, 0, 0x010290, 0, 0, 0, 0,
        14195914391047827090⟩, [], none⟩ (by decide)

/-- Claim C9: on every buffer of at least 48 bytes the header decoder
succeeds, consumes exactly 48 bytes, and extracts li as bits 7-6 of byte 0,
version as bits 5-3, mode as bits 2-0, stratum as the byte at offset 1, poll
and precision as the i8 bytes at offsets 2 and 3, and then big-endian
root_delay (offsets 4-7), root_dispersion (8-11), reference id (12-15) and
the four u64 timestamps (16-23, 24-31, 32-39, 40-47). -/
theorem C9_header_layout (i : List Nat) (h : 48 ≤ i.length) :
    parseHeaderFields i = .ok (i.drop 48)
      ⟨(i.getD 0 0) >>> 6, ((i.getD 0 0) >>> 3) &&& 7, ⟨(i.getD 0 0) &&& 7⟩,
        i.getD 1 0, asI8 (i.getD 2 0), asI8 (i.getD 3 0),
        beVal ((i.drop 4).take 4), beVal ((i.drop 8).take 4),
        beVal ((i.drop 12).take 4),
        beVal ((i.drop 16).take 8), beVal ((i.drop 24).take 8),
        beVal ((i.drop 32).take 8), beVal ((i.drop 40).take 8)⟩ :=
  parseHeaderFields_ok h

/-- Witness for C9: the layout theorem applied to the concrete 48-byte
wireshark capture `NTPV3_REQ` and evaluated. -/
theorem C9_header_layout_witness :
    parseHeaderFields NTPV3_REQ = .ok []
      ⟨0, 3, ⟨3⟩, 4, 6, -11, 4109, 0x0557, 0x82dc1818,
        0xba2966367dd00000, 0xba2966367d584000, 0xba2966367dd00000,
        0xba2966767d505000⟩ := by
  rw [C9_header_layout NTPV3_REQ (by decide)]
  decide

/-- Claim C10: `parse_ntpv4` never inspects the version sub-field: replacing
byte 0 of any buffer leaves success, failure, consumption, extensions and
authenticator unchanged, altering only the three bit-fields computed from
byte 0; and on success the version field is whatever bits 5-3 of byte 0
hold, whether or not that value is 4. -/
theorem C10_version_not_inspected (b0 b0' : Nat) (rest : List Nat) :
    parse_ntpv4 (b0' :: rest) =
      pmap (fun p => withByte0Fields p b0') (parse_ntpv4 (b0 :: rest)) ∧
    (∀ r p, parse_ntpv4 (b0' :: rest) = .ok r p →
      p.version = (b0' >>> 3) &&& 7) := by
  constructor
  · rw [parse_ntpv4_eq_tail (b0' :: rest), parse_ntpv4_eq_tail (b0 :: rest)]
    rw [parseHeaderFields_eq, parseHeaderFields_eq]
    simp only [List.length_cons]
    by_cases h48 : 48 ≤ rest.length + 1
    · rw [if_pos h48, if_pos h48]
      simp only [pbind]
      have hd : (b0' :: rest).drop 48 = (b0 :: rest).drop 48 := rfl
      rw [hd]
      exact v4Tail_byte0 b0 b0' rest ((b0 :: rest).drop 48)
    · rw [if_neg h48, if_neg h48]
      rfl
  · intro r p h
    have hhdr := (parse_ntpv4_header h).2
    show p.toHeaderFields.version = (b0' >>> 3) &&& 7
    rw [hhdr]
    rfl

/-- Witness for C10: byte 0 = 32 encodes version 4 while byte 0 = 0 encodes
version 0; the relation theorem applied to the two concrete 48-byte buffers
and, for the second conjunct, to the decoded packet of the version-4 one. -/
theorem C10_version_not_inspected_witness :
    parse_ntpv4 (32 :: List.replicate 47 0) =
      pmap (fun p => withByte0Fields p 32)
        (parse_ntpv4 (0 :: List.replicate 47 0)) ∧
    (⟨⟨0, 4, ⟨0⟩, 0, 0, 0, 0, 0, 0, 0, 0, 0, 0⟩, [], none⟩ :
      NtpV4Packet).version = (32 >>> 3) &&& 7 := by
  have hth := C10_version_not_inspected 0 32 (List.replicate 47 0)
  exact ⟨hth.1, hth.2 []
    ⟨⟨0, 4, ⟨0⟩, 0, 0, 0, 0, 0, 0, 0, 0, 0, 0⟩, [], none⟩ (by decide)⟩
